import Mathlib

set_option linter.unusedVariables false

/-!
Shallow embedding of the Soundscape tile server (`src/Docker/gentiles.py`)
together with proofs about the claims of the specification.

The embedding covers:
* the metrics subsystem (`StatCounter`, `StatHistogram.sample`,
  mirroring Python list indexing including negative indices);
* the canonical tile encoder (`json.dumps(obj, sort_keys=True)` over the
  rows returned by the store, modelled by an explicit JSON value type and
  a canonical renderer);
* the request pipeline `gentile_async` / `tile_handler_on_conn` /
  `tile_handler_pooling` / `error_middleware`, with the store and the
  exception machinery made explicit;
* the slippy-map coordinate math `osm_deg2num` / `num2deg` /
  `tile_bbox_from_coords` over the real numbers.
-/

namespace Gentiles

/-! ### Metrics: counters -/

/-- Embedding of the class `StatCounter` (gentiles.py lines 64-79);
the `report` formatting is not needed by the claims. -/
structure StatCounter where
  name : String
  help : String
  value : Nat
deriving Repr, DecidableEq

/-- `StatCounter.inc` (line 73-74): increments the counter by 1. -/
def StatCounter.inc (c : StatCounter) : StatCounter :=
  { c with value := c.value + 1 }

/-! ### Metrics: histograms

Histogram samples in the Python code are non-negative numbers (elapsed
times, byte lengths).  We embed the sample values as rational numbers so
that the arithmetic of `StatHistogram.sample` is exact and executable. -/

/-- `math.trunc` on a rational: truncation toward zero. -/
def ratTrunc (q : ℚ) : ℤ :=
  if 0 ≤ q then ⌊q⌋ else ⌈q⌉

/-- Python list indexing semantics for `l[i] += 1`: a non-negative index
must be `< len(l)`; a negative index `i` addresses `l[len(l) + i]`;
anything else raises `IndexError` (modelled by `none`). -/
def pyIncAt (l : List Nat) (i : ℤ) : Option (List Nat) :=
  if 0 ≤ i ∧ i < (l.length : ℤ) then
    some (l.set i.toNat (l.getD i.toNat 0 + 1))
  else if -(l.length : ℤ) ≤ i ∧ i < 0 then
    some (l.set (i + l.length).toNat (l.getD (i + l.length).toNat 0 + 1))
  else
    none

/-- Embedding of the class `StatHistogram` (gentiles.py lines 84-111). -/
structure StatHistogram where
  name : String
  help : String
  sum : ℚ
  interval : ℚ
  buckets : List Nat
  count : Nat
  bucket_count : Nat
  max_value : ℚ
deriving Repr, DecidableEq

/-- `StatHistogram.__init__` (lines 85-93). -/
def StatHistogram.init (name help : String) (interval : ℚ) (bucket_count : Nat) :
    StatHistogram :=
  { name := name
    help := help
    sum := 0
    interval := interval
    buckets := List.replicate bucket_count 0
    count := 0
    bucket_count := bucket_count
    max_value := bucket_count * interval }

/-- `StatHistogram.sample` (lines 95-102).  The returned boolean is `true`
exactly when the Python code would raise (`ZeroDivisionError` for a zero
interval, `IndexError` for an out-of-range bucket index); in that case the
`count`/`sum` mutations, which happen first, have already been applied. -/
def StatHistogram.sample (h : StatHistogram) (value : ℚ) : StatHistogram × Bool :=
  let h' := { h with count := h.count + 1, sum := h.sum + value }
  if value ≤ h.max_value then
    if h.interval = 0 then
      (h', true)
    else
      let index : ℤ := ratTrunc (value / h.interval)
      let index : ℤ := if (index : ℚ) * h.interval = value then index - 1 else index
      match pyIncAt h'.buckets index with
      | some bs => ({ h' with buckets := bs }, false)
      | none => (h', true)
  else
    (h', false)

/-! ### The tile encoder

`gentile_async` (lines 171-180) encodes the rows fetched from the store as
`json.dumps(obj, sort_keys=True)` where
`obj = {'type': 'FeatureCollection', 'features': [row._asdict() for row in rows]}`.
Each row is a named tuple, i.e. an insertion-ordered record of distinct
field names; `sort_keys=True` serializes every object with its keys in
sorted order, using the default separators `", "` and `": "` and
`ensure_ascii=True` escaping. -/

/-- JSON values, as produced by the store rows and `json.dumps`. -/
inductive Json where
  | null : Json
  | bool : Bool → Json
  | num : ℤ → Json
  | str : String → Json
  | arr : List Json → Json
  | obj : List (String × Json) → Json
deriving Repr

/-- A result row: a named tuple turned into an insertion-ordered record by
`row._asdict()` (field name, value). -/
abbrev Row := List (String × Json)

/-- Key order used by `sort_keys=True`: compare the field names. -/
def keyLe (a b : String × Json) : Prop := a.1 ≤ b.1

instance : DecidableRel keyLe := fun a b => inferInstanceAs (Decidable (a.1 ≤ b.1))

instance : IsTotal (String × Json) keyLe := ⟨fun a b => le_total a.1 b.1⟩

instance : IsTrans (String × Json) keyLe := ⟨fun _ _ _ h h' => le_trans h h'⟩

mutual

/-- Canonicalization performed by `sort_keys=True`: recursively sort the
fields of every object by field name. -/
def canon : Json → Json
  | Json.null => Json.null
  | Json.bool b => Json.bool b
  | Json.num n => Json.num n
  | Json.str s => Json.str s
  | Json.arr xs => Json.arr (canonList xs)
  | Json.obj fs => Json.obj (List.insertionSort keyLe (canonFields fs))

def canonList : List Json → List Json
  | [] => []
  | x :: xs => canon x :: canonList xs

def canonFields : List (String × Json) → List (String × Json)
  | [] => []
  | (k, v) :: fs => (k, canon v) :: canonFields fs

end

/-- One hexadecimal digit, lowercase (as emitted by `json.dumps`). -/
def hexDigit (n : Nat) : Char :=
  if n < 10 then Char.ofNat (48 + n) else Char.ofNat (87 + n)

/-- Four hexadecimal digits. -/
def hex4 (n : Nat) : String :=
  String.mk [hexDigit (n / 4096 % 16), hexDigit (n / 256 % 16),
             hexDigit (n / 16 % 16), hexDigit (n % 16)]

/-- Escaping of one character inside a JSON string, following
`json.dumps` with `ensure_ascii=True`: printable ASCII other than `"` and
`\` is kept, the usual shorthand escapes are used, everything else becomes
`\uXXXX` (with surrogate pairs beyond the basic plane). -/
def escapeChar (c : Char) : String :=
  if c = '"' then "\\\""
  else if c = '\\' then "\\\\"
  else if c = '\n' then "\\n"
  else if c = '\t' then "\\t"
  else if c = '\r' then "\\r"
  else if c.val = 8 then "\\b"
  else if c.val = 12 then "\\f"
  else if c.val < 32 ∨ 127 ≤ c.val then
    if c.val ≤ 65535 then
      "\\u" ++ hex4 c.val.toNat
    else
      "\\u" ++ hex4 (55296 + (c.val.toNat - 65536) / 1024) ++
      "\\u" ++ hex4 (56320 + (c.val.toNat - 65536) % 1024)
  else
    String.singleton c

/-- A JSON string literal. -/
def encodeJsonString (s : String) : String :=
  "\"" ++ String.join (s.data.map escapeChar) ++ "\""

mutual

/-- Serialization of an (already canonicalized) JSON value with the
`json.dumps` default separators `", "` and `": "`. -/
def renderJson : Json → String
  | Json.null => "null"
  | Json.bool true => "true"
  | Json.bool false => "false"
  | Json.num n => toString n
  | Json.str s => encodeJsonString s
  | Json.arr xs => "[" ++ renderList xs ++ "]"
  | Json.obj fs => "\x7b" ++ renderFields fs ++ "\x7d"

def renderList : List Json → String
  | [] => ""
  | [x] => renderJson x
  | x :: y :: xs => renderJson x ++ ", " ++ renderList (y :: xs)

def renderFields : List (String × Json) → String
  | [] => ""
  | [(k, v)] => encodeJsonString k ++ ": " ++ renderJson v
  | (k, v) :: f :: fs =>
    encodeJsonString k ++ ": " ++ renderJson v ++ ", " ++ renderFields (f :: fs)

end

/-- `json.dumps(j, sort_keys=True)`. -/
def dumpsSorted (j : Json) : String := renderJson (canon j)

/-- The tile document built and serialized by `gentile_async`
(lines 171-177): `{'type': 'FeatureCollection', 'features': rows}` with
sorted keys. -/
def gentileEncode (rows : List Row) : String :=
  dumpsSorted (Json.obj [("type", Json.str "FeatureCollection"),
                         ("features", Json.arr (rows.map Json.obj))])

/-! ### The request pipeline

The store (`aiopg`/`psycopg2` and the `soundscape_tile` procedure) is an
external collaborator.  Its behaviour on one tile query is abstracted by
`StoreOutcome`: either it returns an ordered sequence of rows, or a
`psycopg2`-level error (connection or execution failure) is raised while
the query is being executed.  Wall-clock query time is likewise external
and enters the model as the `elapsed` parameter fed to the query-time
histogram. -/

/-- Behaviour of the store on the issued tile query. -/
inductive StoreOutcome where
  | rows : List Row → StoreOutcome
  | pgError : StoreOutcome

/-- The Python exceptions that can travel through the handler stack. -/
inductive PyExc where
  | pgError : PyExc
  | httpNotFound : PyExc
  | httpServiceUnavailable : PyExc
  | indexError : PyExc
deriving Repr, DecidableEq

/-- Is the exception an `aiohttp.web.HTTPException`?  (`error_middleware`
re-raises those unchanged and converts everything else to a 500.) -/
def PyExc.isHTTPException : PyExc → Bool
  | PyExc.httpNotFound => true
  | PyExc.httpServiceUnavailable => true
  | _ => false

/-- The module-level metrics state (gentiles.py lines 113-121). -/
structure Metrics where
  tilesrv_metrics_scraped : StatCounter
  tilesrv_aliveprobe : StatCounter
  tilesrv_start : StatCounter
  tile_served : StatCounter
  tile_exception : StatCounter
  tile_queryfail : StatCounter
  tile_querytime : StatHistogram
  tile_size : StatHistogram
deriving Repr, DecidableEq

/-- The metrics state as initialized at module load (lines 113-121). -/
def initMetrics : Metrics :=
  { tilesrv_metrics_scraped :=
      ⟨"tilesrv_metrics_scraped", "count of times scraped", 0⟩
    tilesrv_aliveprobe :=
      ⟨"tilesrv_aliveprobe_count", "count of times probe for aliveness", 0⟩
    tilesrv_start := ⟨"tilesrv_start_count", "count of times tile server started", 0⟩
    tile_served := ⟨"tile_served_count", "count of tiles served", 0⟩
    tile_exception :=
      ⟨"tile_exception_count", "count of tiles requests that ended in exception", 0⟩
    tile_queryfail :=
      ⟨"tile_queryfail_count", "count of tiles requests that experienced query failure", 0⟩
    tile_querytime :=
      StatHistogram.init "tile_querytime_seconds" "histogram of tile query performance"
        (1/5) 20
    tile_size := StatHistogram.init "tile_size" "histogram of tile size" (1024 * 8) 32 }

/-- Server state threaded through a request: the metrics, plus an
instrumentation count of how many tile queries were submitted to the
store (used to express "no query issued"). -/
structure ServerState where
  metrics : Metrics
  store_queries : Nat
deriving Repr, DecidableEq

/-- `zoom_default = 16` (line 149). -/
def zoom_default : Nat := 16

/-- `gentile_async` (lines 161-183), called by the handlers with
`gather_metrics=True`.  Submitting the query to the store either yields
rows or raises a `psycopg2` error, which the `except psycopg2.Error`
clause logs and re-raises.  On success the query time and the byte length
of the canonical tile text are sampled and the tile text is returned
(never `None`). -/
def gentile_async (zoom x y : Nat) (outcome : StoreOutcome) (elapsed : ℚ)
    (s : ServerState) : Except PyExc (Option String) × ServerState :=
  let s := { s with store_queries := s.store_queries + 1 }
  match outcome with
  | StoreOutcome.pgError => (Except.error PyExc.pgError, s)
  | StoreOutcome.rows rs =>
    let qsample := s.metrics.tile_querytime.sample elapsed
    let s := { s with metrics := { s.metrics with tile_querytime := qsample.1 } }
    if qsample.2 then (Except.error PyExc.indexError, s) else
    let tile := gentileEncode rs
    let zsample := s.metrics.tile_size.sample (tile.length : ℚ)
    let s := { s with metrics := { s.metrics with tile_size := zsample.1 } }
    if zsample.2 then (Except.error PyExc.indexError, s) else
    (Except.ok (some tile), s)

/-- An HTTP response. -/
structure Response where
  status : Nat
  body : String
deriving Repr, DecidableEq

/-- `tile_handler_on_conn` (lines 185-203): validate the zoom (anything
other than `zoom_default` raises `HTTPNotFound` before any query), run
`gentile_async`, and either serve the tile (200) or — when the tile data
is `None` — count a query failure and raise `HTTPServiceUnavailable`. -/
def tile_handler_on_conn (zoom x y : Nat) (outcome : StoreOutcome) (elapsed : ℚ)
    (s : ServerState) : Except PyExc Response × ServerState :=
  if zoom ≠ zoom_default then
    (Except.error PyExc.httpNotFound, s)
  else
    match gentile_async zoom x y outcome elapsed s with
    | (Except.error e, s) => (Except.error e, s)
    | (Except.ok none, s) =>
      (Except.error PyExc.httpServiceUnavailable,
       { s with metrics := { s.metrics with tile_queryfail := s.metrics.tile_queryfail.inc } })
    | (Except.ok (some tile_data), s) =>
      (Except.ok ⟨200, tile_data⟩,
       { s with metrics := { s.metrics with tile_served := s.metrics.tile_served.inc } })

/-- `tile_handler_pooling` (lines 214-222): acquire a pooled connection and
delegate; `except Exception` increments the exception counter for *every*
escaping exception (including `aiohttp` HTTP exceptions) and re-raises. -/
def tile_handler_pooling (zoom x y : Nat) (outcome : StoreOutcome) (elapsed : ℚ)
    (s : ServerState) : Except PyExc Response × ServerState :=
  match tile_handler_on_conn zoom x y outcome elapsed s with
  | (Except.error e, s) =>
    (Except.error e,
     { s with metrics := { s.metrics with tile_exception := s.metrics.tile_exception.inc } })
  | ok => ok

/-- `error_middleware` (lines 230-238) combined with aiohttp's rendering of
raised `HTTPException`s: an HTTP exception becomes its own status code,
any other exception is replaced by `HTTPInternalServerError` (500). -/
def error_middleware (r : Except PyExc Response × ServerState) : Response × ServerState :=
  match r with
  | (Except.ok resp, s) => (resp, s)
  | (Except.error PyExc.httpNotFound, s) => (⟨404, ""⟩, s)
  | (Except.error PyExc.httpServiceUnavailable, s) => (⟨503, ""⟩, s)
  | (Except.error _, s) => (⟨500, ""⟩, s)

/-- One full `GET /{zoom}/{x}/{y}.json` request through the middleware and
the pooling handler. -/
def serve (zoom x y : Nat) (outcome : StoreOutcome) (elapsed : ℚ)
    (s : ServerState) : Response × ServerState :=
  error_middleware (tile_handler_pooling zoom x y outcome elapsed s)

/-- Initial server state: metrics as initialized at module load, no tile
query issued yet. -/
def initState : ServerState := ⟨initMetrics, 0⟩

/-! ### Coordinate math (gentiles.py lines 255-277)

The Python code computes with IEEE doubles; the mathematical content of
the conversions is embedded over the real numbers, with `int(...)`
modelled as truncation toward zero. -/

/-- Python `int(...)` applied to a real value: truncation toward zero. -/
noncomputable def pyint (r : ℝ) : ℤ :=
  if 0 ≤ r then ⌊r⌋ else ⌈r⌉

/-- `osm_deg2num` (lines 255-260): geographical coordinates to OSM tile
coordinates.  `lat_rad = math.radians(lat_deg)`, `n = 2.0 ** zoom`,
`xtile = int((lon_deg + 180) / 360 * n)`,
`ytile = int((1 - log(tan(lat_rad) + 1/cos(lat_rad)) / pi) / 2 * n)`. -/
noncomputable def osm_deg2num (lat_deg lon_deg : ℝ) (zoom : ℕ) : ℤ × ℤ :=
  (pyint ((lon_deg + 180) / 360 * 2 ^ zoom),
   pyint ((1 - Real.log (Real.tan (lat_deg * (Real.pi / 180)) +
       1 / Real.cos (lat_deg * (Real.pi / 180))) / Real.pi) / 2 * 2 ^ zoom))

/-- `num2deg` (lines 263-268): OSM tile coordinates to the geographical
coordinates of the tile's NW corner.  `n = 2.0 ** zoom`,
`lon_deg = xtile / n * 360 - 180`,
`lat_rad = atan(sinh(pi * (1 - 2 * ytile / n)))`,
returns `(math.degrees(lat_rad), lon_deg)`. -/
noncomputable def num2deg (xtile ytile : ℝ) (zoom : ℕ) : ℝ × ℝ :=
  (Real.arctan (Real.sinh (Real.pi * (1 - 2 * ytile / 2 ^ zoom))) * (180 / Real.pi),
   xtile / 2 ^ zoom * 360 - 180)

/-- `tile_bbox_from_coords` (lines 270-277): min/max envelope of the two
projected corners of a geographical bounding box. -/
noncomputable def tile_bbox_from_coords (zoom : ℕ) (coord_bbox : ℝ × ℝ × ℝ × ℝ) :
    ℤ × ℤ × ℤ × ℤ :=
  let a := osm_deg2num coord_bbox.1 coord_bbox.2.1 zoom
  let b := osm_deg2num coord_bbox.2.2.1 coord_bbox.2.2.2 zoom
  (min a.1 b.1, min a.2 b.2, max a.1 b.1, max a.2 b.2)

/-! ### Helper lemmas -/

theorem ratTrunc_eq_floor {q : ℚ} (h : 0 ≤ q) : ratTrunc q = ⌊q⌋ := if_pos h

theorem getD_set_self {l : List Nat} {j : Nat} (h : j < l.length) (x : Nat) :
    (l.set j x).getD j 0 = x := by
  simp [List.getD_eq_getElem?_getD, List.getElem?_set_self', List.getElem?_eq_getElem h]

theorem getD_set_ne {l : List Nat} {i j : Nat} (h : i ≠ j) (x : Nat) :
    (l.set j x).getD i 0 = l.getD i 0 := by
  simp [List.getD_eq_getElem?_getD, List.getElem?_set_ne (fun hji => h hji.symm)]

/-- The canonical encoding of the empty row sequence, computed. -/
theorem gentileEncode_nil :
    gentileEncode [] = "\x7b\"features\": [], \"type\": \"FeatureCollection\"\x7d" := by
  have hc : canon (Json.obj [("type", Json.str "FeatureCollection"),
      ("features", Json.arr (List.map Json.obj []))]) =
      Json.obj [("features", Json.arr []), ("type", Json.str "FeatureCollection")] := by
    simp [canon, canonFields, canonList, List.insertionSort, List.orderedInsert, keyLe]
    decide
  rw [gentileEncode, dumpsSorted, hc]
  simp [renderJson, renderFields, renderList, encodeJsonString, escapeChar]
  decide

theorem pyIncAt_nonneg {l : List Nat} {i : ℤ} (h0 : 0 ≤ i) (hlt : i < (l.length : ℤ)) :
    pyIncAt l i = some (l.set i.toNat (l.getD i.toNat 0 + 1)) := by
  unfold pyIncAt
  rw [if_pos ⟨h0, hlt⟩]

theorem sample_reduce (h : StatHistogram) (v : ℚ) (hvle : v ≤ h.max_value)
    (hnz : ¬ h.interval = 0) :
    h.sample v =
      (let h' := { h with count := h.count + 1, sum := h.sum + v }
       let index : ℤ := ratTrunc (v / h.interval)
       let index : ℤ := if (index : ℚ) * h.interval = v then index - 1 else index
       match pyIncAt h'.buckets index with
       | some bs => ({ h' with buckets := bs }, false)
       | none => (h', true)) := by
  unfold StatHistogram.sample
  rw [if_pos hvle, if_neg hnz]

theorem sample_reduce_gt (h : StatHistogram) (v : ℚ) (hvgt : h.max_value < v) :
    h.sample v = ({ h with count := h.count + 1, sum := h.sum + v }, false) := by
  unfold StatHistogram.sample
  rw [if_neg (not_le.mpr hvgt)]

/-- The interval brackets `(i*interval, (i+1)*interval]` are pairwise
disjoint: a value lies in at most one of them. -/
theorem bucket_bracket_unique {ι v : ℚ} (hι : 0 < ι) {i j : ℕ}
    (hi1 : (i : ℚ) * ι < v) (hi2 : v ≤ ((i : ℚ) + 1) * ι)
    (hj1 : (j : ℚ) * ι < v) (hj2 : v ≤ ((j : ℚ) + 1) * ι) : i = j := by
  have hij : (i : ℚ) < (j : ℚ) + 1 := (mul_lt_mul_right hι).mp (lt_of_lt_of_le hi1 hj2)
  have hji : (j : ℚ) < (i : ℚ) + 1 := (mul_lt_mul_right hι).mp (lt_of_lt_of_le hj1 hi2)
  have h1 : i < j + 1 := by exact_mod_cast hij
  have h2 : j < i + 1 := by exact_mod_cast hji
  omega

/-- Characterization of `StatHistogram.sample` on a positive in-range
value: exactly one bucket `j` is incremented, the one whose half-open
interval `(j*interval, (j+1)*interval]` contains the value. -/
theorem sample_eq_of_pos (h : StatHistogram) (v : ℚ)
    (hlen : h.buckets.length = h.bucket_count)
    (hmax : h.max_value = (h.bucket_count : ℚ) * h.interval)
    (hi : 0 < h.interval) (hv : 0 < v) (hvle : v ≤ h.max_value) :
    ∃ j : ℕ, j < h.bucket_count ∧
      (j : ℚ) * h.interval < v ∧ v ≤ ((j : ℚ) + 1) * h.interval ∧
      h.sample v =
        ({ h with
            count := h.count + 1
            sum := h.sum + v
            buckets := h.buckets.set j (h.buckets.getD j 0 + 1) }, false) := by
  have hq : 0 < v / h.interval := div_pos hv hi
  have hfl : (0 : ℤ) ≤ ⌊v / h.interval⌋ := Int.floor_nonneg.mpr hq.le
  have hqbc : v / h.interval ≤ (h.bucket_count : ℚ) := by
    rw [div_le_iff hi]
    rw [hmax] at hvle
    linarith [hvle]
  have hflbc : ⌊v / h.interval⌋ ≤ (h.bucket_count : ℤ) := by
    calc ⌊v / h.interval⌋ ≤ ⌊(h.bucket_count : ℚ)⌋ := Int.floor_le_floor hqbc
    _ = (h.bucket_count : ℤ) := Int.floor_natCast _
  have hlen' : (h.buckets.length : ℤ) = (h.bucket_count : ℤ) := by exact_mod_cast hlen
  have hred := sample_reduce h v hvle hi.ne'
  rw [ratTrunc_eq_floor hq.le] at hred
  by_cases hE : (↑⌊v / h.interval⌋ : ℚ) * h.interval = v
  · -- the value is exactly on a bucket boundary: the code steps down one bucket
    have h1 : 1 ≤ ⌊v / h.interval⌋ := by
      rcases lt_or_ge ⌊v / h.interval⌋ 1 with hlt | hge
      · exfalso
        have h0 : ⌊v / h.interval⌋ = 0 := by omega
        rw [h0] at hE
        push_cast at hE
        nlinarith
      · exact hge
    have hcast : (((⌊v / h.interval⌋ - 1).toNat : ℕ) : ℚ) =
        (↑⌊v / h.interval⌋ : ℚ) - 1 := by
      have h2 : ((⌊v / h.interval⌋ - 1).toNat : ℤ) = ⌊v / h.interval⌋ - 1 :=
        Int.toNat_of_nonneg (by omega)
      exact_mod_cast h2
    refine ⟨(⌊v / h.interval⌋ - 1).toNat, ?_, ?_, ?_, ?_⟩
    · omega
    · rw [hcast]
      nlinarith
    · rw [hcast]
      nlinarith
    · rw [hred]
      dsimp only
      rw [if_pos hE]
      have hp := pyIncAt_nonneg (l := h.buckets) (i := ⌊v / h.interval⌋ - 1)
        (by omega) (by omega)
      rw [hp]
  · -- the value is strictly inside a bucket
    have hlt : (↑⌊v / h.interval⌋ : ℚ) < v / h.interval :=
      lt_of_le_of_ne (Int.floor_le _) (by
        intro hc
        apply hE
        rw [hc]
        field_simp)
    have hne : ⌊v / h.interval⌋ ≠ (h.bucket_count : ℤ) := by
      intro hc
      rw [hc] at hlt
      push_cast at hlt
      linarith [hqbc]
    have hcast : ((⌊v / h.interval⌋.toNat : ℕ) : ℚ) = (↑⌊v / h.interval⌋ : ℚ) := by
      have h2 : (⌊v / h.interval⌋.toNat : ℤ) = ⌊v / h.interval⌋ := Int.toNat_of_nonneg hfl
      exact_mod_cast h2
    refine ⟨⌊v / h.interval⌋.toNat, by omega, ?_, ?_, ?_⟩
    · rw [hcast]
      calc (↑⌊v / h.interval⌋ : ℚ) * h.interval < (v / h.interval) * h.interval :=
        (mul_lt_mul_right hi).mpr hlt
      _ = v := by field_simp
    · rw [hcast]
      have hup : v / h.interval < (↑⌊v / h.interval⌋ : ℚ) + 1 := Int.lt_floor_add_one _
      have := (mul_lt_mul_right hi).mpr hup
      rw [div_mul_cancel₀ v hi.ne'] at this
      linarith
    · rw [hred]
      dsimp only
      rw [if_neg hE]
      have hp := pyIncAt_nonneg (l := h.buckets) (i := ⌊v / h.interval⌋)
        hfl (by omega)
      rw [hp]

theorem pyIncAt_neg {l : List Nat} {i : ℤ} (h0 : i < 0) (hge : -(l.length : ℤ) ≤ i) :
    pyIncAt l i =
      some (l.set (i + l.length).toNat (l.getD (i + l.length).toNat 0 + 1)) := by
  unfold pyIncAt
  rw [if_neg (by omega), if_pos ⟨hge, h0⟩]

/-- Shape invariant of the module's histograms: positive interval, at
least one bucket, bucket list of the declared length, `max_value` as set
by `__init__`.  It holds for the initial histograms and is preserved by
`sample` (which never changes these fields). -/
def StatHistogram.goodShape (h : StatHistogram) : Prop :=
  0 < h.interval ∧ h.buckets.length = h.bucket_count ∧ 1 ≤ h.bucket_count ∧
    h.max_value = (h.bucket_count : ℚ) * h.interval

/-- On a non-negative value, `sample` on a well-shaped histogram never
raises. -/
theorem sample_no_raise (h : StatHistogram) (v : ℚ) (hg : h.goodShape) (hv : 0 ≤ v) :
    (h.sample v).2 = false := by
  obtain ⟨hi, hlen, hbc, hmax⟩ := hg
  rcases lt_or_eq_of_le hv with hpos | hzero
  · by_cases hvle : v ≤ h.max_value
    · obtain ⟨j, -, -, -, heq⟩ := sample_eq_of_pos h v hlen hmax hi hpos hvle
      rw [heq]
    · rw [sample_reduce_gt h v (not_le.mp hvle)]
  · subst hzero
    have hvle : (0 : ℚ) ≤ h.max_value := by
      rw [hmax]
      positivity
    have hred := sample_reduce h 0 hvle hi.ne'
    rw [ratTrunc_eq_floor (by positivity)] at hred
    rw [hred]
    dsimp only
    rw [zero_div, Int.floor_zero, if_pos (by norm_num)]
    rw [pyIncAt_neg (by norm_num) (by simp [hlen]; exact_mod_cast hbc)]

/-! ### Claim C5 -/

/-- Claim C5: for every histogram and every non-negative value `v`, one call
to `sample(v)` increments `count` by exactly 1 and increases `sum` by
exactly `v`, regardless of whether any bucket is incremented (including
when `v` exceeds `bucket_count * interval`). -/
theorem claim_C5 (h : StatHistogram) (v : ℚ) (hv : 0 ≤ v) :
    (h.sample v).1.count = h.count + 1 ∧ (h.sample v).1.sum = h.sum + v := by
  unfold StatHistogram.sample
  dsimp only
  repeat' split
  all_goals exact ⟨rfl, rfl⟩

/-- Witness for C5 at the module's tile-size histogram and `v = 1`. -/
theorem claim_C5_witness :
    (0 : ℚ) ≤ 1 ∧
      ((StatHistogram.init "tile_size" "histogram of tile size" (1024 * 8) 32).sample 1).1.count =
        (StatHistogram.init "tile_size" "histogram of tile size" (1024 * 8) 32).count + 1 :=
  ⟨by norm_num,
   (claim_C5 (StatHistogram.init "tile_size" "histogram of tile size" (1024 * 8) 32) 1
     (by norm_num)).1⟩

/-! ### Claim C2 -/

/-- Counterexample to C2 as stated: C2 quantifies over all *non-negative*
values, but at `v = 0` (with interval 1 and 2 buckets) the code computes
bucket index `trunc(0/1) - 1 = -1`, and Python's negative indexing makes
`buckets[-1] += 1` increment the *last* bucket, although no `i` satisfies
`i*interval < 0`. -/
theorem claim_C2_counterexample :
    ((StatHistogram.init "h" "help" 1 2).sample 0).1.buckets.getD 1 0 = 1 ∧
    ¬ ((1 : ℚ) * 1 < 0 ∧ (0 : ℚ) ≤ ((1 : ℚ) + 1) * 1) := by
  constructor
  · norm_num [StatHistogram.init, StatHistogram.sample, ratTrunc, pyIncAt]
  · intro hc
    exact absurd hc.1 (by norm_num)

/-- Claim C2, amended: restricted to *positive* values `v` (for `v = 0`
Python's negative indexing sends the sample to the last bucket).  For every
histogram and every `v > 0`: `sample(v)` raises nothing; bucket `i` is
incremented exactly when `i*interval < v <= (i+1)*interval` and
`v <= bucket_count * interval`, and no other bucket changes; when
`v > bucket_count * interval` no bucket changes at all. -/
theorem claim_C2_amended (h : StatHistogram) (v : ℚ)
    (hlen : h.buckets.length = h.bucket_count)
    (hmax : h.max_value = (h.bucket_count : ℚ) * h.interval)
    (hi : 0 < h.interval) (hv : 0 < v) :
    (h.sample v).2 = false ∧
    (∀ i : ℕ, (h.sample v).1.buckets.getD i 0 =
      h.buckets.getD i 0 +
        (if (i : ℚ) * h.interval < v ∧ v ≤ ((i : ℚ) + 1) * h.interval ∧
            v ≤ (h.bucket_count : ℚ) * h.interval then 1 else 0)) ∧
    ((h.bucket_count : ℚ) * h.interval < v → (h.sample v).1.buckets = h.buckets) := by
  by_cases hvle : v ≤ h.max_value
  · obtain ⟨j, hjbc, hj1, hj2, heq⟩ := sample_eq_of_pos h v hlen hmax hi hv hvle
    have hvbc : v ≤ (h.bucket_count : ℚ) * h.interval := hmax ▸ hvle
    refine ⟨by rw [heq], ?_, ?_⟩
    · intro i
      rw [heq]
      dsimp only
      by_cases hij : i = j
      · subst hij
        rw [getD_set_self (hlen ▸ hjbc), if_pos ⟨hj1, hj2, hvbc⟩]
      · rw [getD_set_ne hij, if_neg, Nat.add_zero]
        rintro ⟨hi1, hi2, -⟩
        exact hij (bucket_bracket_unique hi hi1 hi2 hj1 hj2)
    · intro hgt
      exact absurd hvbc (not_le.mpr hgt)
  · push_neg at hvle
    have heq := sample_reduce_gt h v hvle
    have hgt : (h.bucket_count : ℚ) * h.interval < v := hmax ▸ hvle
    refine ⟨by rw [heq], ?_, fun _ => by rw [heq]⟩
    intro i
    rw [heq]
    dsimp only
    rw [if_neg, Nat.add_zero]
    rintro ⟨-, -, hle⟩
    exact absurd hle (not_le.mpr hgt)

/-- Witness for C2 (amended) at the query-time histogram's initial state
and the in-range value `v = 1/2`. -/
theorem claim_C2_witness :
    (0 : ℚ) < 1 / 2 ∧
      ((StatHistogram.init "tile_querytime_seconds" "histogram of tile query performance"
        (1/5) 20).sample (1/2)).2 = false :=
  ⟨by norm_num,
   (claim_C2_amended
     (StatHistogram.init "tile_querytime_seconds" "histogram of tile query performance"
       (1/5) 20) (1/2) (by decide) rfl
     (by norm_num [StatHistogram.init]) (by norm_num)).1⟩

/-! ### Claim C4 -/

/-- Claim C4: a sample exactly on a bucket boundary, `v = k * interval`
with `1 <= k <= bucket_count`, increments bucket `k-1` and no other
bucket. -/
theorem claim_C4 (h : StatHistogram) (k : ℕ)
    (hlen : h.buckets.length = h.bucket_count)
    (hmax : h.max_value = (h.bucket_count : ℚ) * h.interval)
    (hi : 0 < h.interval) (hk1 : 1 ≤ k) (hk2 : k ≤ h.bucket_count) :
    (h.sample ((k : ℚ) * h.interval)).2 = false ∧
    ∀ i : ℕ, (h.sample ((k : ℚ) * h.interval)).1.buckets.getD i 0 =
      h.buckets.getD i 0 + (if i = k - 1 then 1 else 0) := by
  have hv : 0 < (k : ℚ) * h.interval := by
    have : (0 : ℚ) < (k : ℚ) := by exact_mod_cast hk1
    positivity
  have hvle : (k : ℚ) * h.interval ≤ h.max_value := by
    rw [hmax]
    have : (k : ℚ) ≤ (h.bucket_count : ℚ) := by exact_mod_cast hk2
    nlinarith
  obtain ⟨j, hjbc, hj1, hj2, heq⟩ := sample_eq_of_pos h _ hlen hmax hi hv hvle
  have hjk : j = k - 1 := by
    have hjlt : (j : ℚ) < (k : ℚ) := (mul_lt_mul_right hi).mp hj1
    have hkle : (k : ℚ) ≤ (j : ℚ) + 1 := (mul_le_mul_right hi).mp hj2
    have h1 : j < k := by exact_mod_cast hjlt
    have h2 : k ≤ j + 1 := by exact_mod_cast hkle
    omega
  subst hjk
  refine ⟨by rw [heq], ?_⟩
  intro i
  rw [heq]
  dsimp only
  by_cases hik : i = k - 1
  · subst hik
    rw [getD_set_self (hlen ▸ hjbc), if_pos rfl]
  · rw [getD_set_ne hik, if_neg hik, Nat.add_zero]

/-- Witness for C4 at the query-time histogram's initial state and the
boundary value `3 * interval`. -/
theorem claim_C4_witness :
    (1 ≤ 3 ∧ 3 ≤ 20) ∧
      ((StatHistogram.init "tile_querytime_seconds" "histogram of tile query performance"
        (1/5) 20).sample ((3 : ℚ) * (1/5))).2 = false :=
  ⟨by omega,
   (claim_C4
     (StatHistogram.init "tile_querytime_seconds" "histogram of tile query performance"
       (1/5) 20) 3 (by decide) rfl
     (by norm_num [StatHistogram.init]) (by omega) (by decide)).1⟩

/-! ### Claim C6 -/

/-- Strict key order on record fields. -/
def keyLt (a b : String × Json) : Prop := a.1 < b.1

instance : IsAntisymm (String × Json) keyLt :=
  ⟨fun _ _ h1 h2 => absurd h1 (lt_asymm h2)⟩

theorem canonFields_eq_map (fs : List (String × Json)) :
    canonFields fs = fs.map (fun p => (p.1, canon p.2)) := by
  induction fs with
  | nil => rfl
  | cons p fs ih =>
    cases p
    simp [canonFields, ih]

theorem canonList_eq_map (xs : List Json) : canonList xs = xs.map canon := by
  induction xs with
  | nil => rfl
  | cons x xs ih => simp [canonList, ih]

/-- Sorting by key is insensitive to the input order when the keys are
distinct: any two permuted field lists sort to the same list. -/
theorem insertionSort_eq_of_perm {l₁ l₂ : List (String × Json)} (hp : l₁.Perm l₂)
    (hnd : (l₁.map Prod.fst).Nodup) :
    List.insertionSort keyLe l₁ = List.insertionSort keyLe l₂ := by
  have hs₁ : List.Sorted keyLe (List.insertionSort keyLe l₁) :=
    List.sorted_insertionSort keyLe l₁
  have hs₂ : List.Sorted keyLe (List.insertionSort keyLe l₂) :=
    List.sorted_insertionSort keyLe l₂
  have hp₁ : (List.insertionSort keyLe l₁).Perm l₁ := List.perm_insertionSort keyLe l₁
  have hp₂ : (List.insertionSort keyLe l₂).Perm l₂ := List.perm_insertionSort keyLe l₂
  have hpp : (List.insertionSort keyLe l₁).Perm (List.insertionSort keyLe l₂) :=
    hp₁.trans (hp.trans hp₂.symm)
  have hnd₁ : ((List.insertionSort keyLe l₁).map Prod.fst).Nodup :=
    ((hp₁.map Prod.fst).nodup_iff).mpr hnd
  have hnd₂ : ((List.insertionSort keyLe l₂).map Prod.fst).Nodup :=
    ((hp₂.map Prod.fst).nodup_iff).mpr (((hp.map Prod.fst).nodup_iff).mp hnd)
  have hne₁ : List.Pairwise (fun a b : String × Json => a.1 ≠ b.1)
      (List.insertionSort keyLe l₁) := (List.pairwise_map).mp hnd₁
  have hne₂ : List.Pairwise (fun a b : String × Json => a.1 ≠ b.1)
      (List.insertionSort keyLe l₂) := (List.pairwise_map).mp hnd₂
  have hlt₁ : List.Sorted keyLt (List.insertionSort keyLe l₁) :=
    (hs₁.and hne₁).imp fun hab => lt_of_le_of_ne hab.1 hab.2
  have hlt₂ : List.Sorted keyLt (List.insertionSort keyLe l₂) :=
    (hs₂.and hne₂).imp fun hab => lt_of_le_of_ne hab.1 hab.2
  exact List.eq_of_perm_of_sorted hpp hlt₁ hlt₂

/-- Canonicalization of an object is insensitive to the insertion order of
its fields (given distinct field names). -/
theorem canon_obj_of_perm {fs₁ fs₂ : List (String × Json)} (hp : fs₁.Perm fs₂)
    (hnd : (fs₁.map Prod.fst).Nodup) :
    canon (Json.obj fs₁) = canon (Json.obj fs₂) := by
  rw [canon, canon]
  congr 1
  apply insertionSort_eq_of_perm
  · rw [canonFields_eq_map, canonFields_eq_map]
    exact hp.map _
  · rw [canonFields_eq_map, List.map_map]
    exact hnd

/-- Claim C6: the tile encoder is deterministic — encoding the same row
sequence twice yields identical text, and row sequences that agree up to
the insertion order of the fields within each record (fields being a
permutation with distinct names, as for a named tuple's `_asdict()`)
encode to byte-identical documents: `sort_keys=True` serializes keys in
sorted order. -/
theorem claim_C6 (rows rows₁ rows₂ : List Row)
    (hperm : List.Forall₂ (fun r₁ r₂ : Row => r₁.Perm r₂) rows₁ rows₂)
    (hnd : ∀ r ∈ rows₁, (r.map Prod.fst).Nodup) :
    gentileEncode rows = gentileEncode rows ∧ gentileEncode rows₁ = gentileEncode rows₂ := by
  refine ⟨rfl, ?_⟩
  have hmaps : ∀ (r₁ r₂ : List Row),
      List.Forall₂ (fun a b : Row => a.Perm b) r₁ r₂ →
      (∀ r ∈ r₁, (r.map Prod.fst).Nodup) →
      (r₁.map Json.obj).map canon = (r₂.map Json.obj).map canon := by
    intro r₁ r₂ hp12
    induction hp12 with
    | nil => intro _; rfl
    | cons hr hrest ih =>
      intro hnd2
      simp only [List.map_cons]
      rw [canon_obj_of_perm hr (hnd2 _ (by simp)),
        ih (fun r hm => hnd2 r (by simp [hm]))]
  unfold gentileEncode dumpsSorted
  congr 1
  simp only [canon, canonFields, canonList_eq_map, List.map_map]
  rw [← List.map_map, ← List.map_map, hmaps rows₁ rows₂ hperm hnd]

/-- Witness for C6: two one-row sequences whose single record has its two
fields inserted in opposite orders encode identically. -/
theorem claim_C6_witness :
    List.Forall₂ (fun r₁ r₂ : Row => r₁.Perm r₂)
      [[("id", Json.num 1), ("name", Json.str "A")]]
      [[("name", Json.str "A"), ("id", Json.num 1)]] ∧
    gentileEncode [[("id", Json.num 1), ("name", Json.str "A")]] =
      gentileEncode [[("name", Json.str "A"), ("id", Json.num 1)]] := by
  have hperm : List.Forall₂ (fun r₁ r₂ : Row => r₁.Perm r₂)
      [[("id", Json.num 1), ("name", Json.str "A")]]
      [[("name", Json.str "A"), ("id", Json.num 1)]] :=
    List.Forall₂.cons (List.Perm.swap _ _ _) List.Forall₂.nil
  refine ⟨hperm, ?_⟩
  have hnd : ∀ r ∈ [[(("id" : String), Json.num 1), ("name", Json.str "A")]],
      (r.map Prod.fst).Nodup := by
    intro r hr
    simp only [List.mem_singleton] at hr
    subst hr
    simp
  exact (claim_C6 [] _ _ hperm hnd).2

/-! ### Claim C10 -/

/-- When the store returns rows and the metric histograms are well
shaped, `gentile_async` succeeds and returns the canonical encoding of the
rows (never `None`), after sampling the query time and the tile size. -/
theorem gentile_async_ok (zoom x y : Nat) (rows : List Row) (elapsed : ℚ)
    (s : ServerState) (h1 : s.metrics.tile_querytime.goodShape)
    (h2 : s.metrics.tile_size.goodShape) (he : 0 ≤ elapsed) :
    gentile_async zoom x y (StoreOutcome.rows rows) elapsed s =
      (Except.ok (some (gentileEncode rows)),
       { s with
          metrics := { s.metrics with
            tile_querytime := (s.metrics.tile_querytime.sample elapsed).1
            tile_size :=
              (s.metrics.tile_size.sample (((gentileEncode rows).length : ℕ) : ℚ)).1 }
          store_queries := s.store_queries + 1 }) := by
  have e1 : (s.metrics.tile_querytime.sample elapsed).2 = false :=
    sample_no_raise _ _ h1 he
  have e2 : (s.metrics.tile_size.sample (((gentileEncode rows).length : ℕ) : ℚ)).2 =
      false :=
    sample_no_raise _ _ h2 (by positivity)
  unfold gentile_async
  dsimp only
  rw [e1, e2]
  rfl

/-- Claim C10: for every row sequence the store returns (including the
empty one), `gentile_async` returns a non-`None` string, so the
`tile_data == None` branch of `tile_handler_on_conn` — the only branch
that responds 503 and increments `tile_queryfail` — is not taken, and an
empty result is served as 200 with the empty FeatureCollection
document. -/
theorem claim_C10 (rows : List Row) (x y : Nat) (elapsed : ℚ) (s : ServerState)
    (h1 : s.metrics.tile_querytime.goodShape) (h2 : s.metrics.tile_size.goodShape)
    (he : 0 ≤ elapsed) :
    (gentile_async 16 x y (StoreOutcome.rows rows) elapsed s).1 =
      Except.ok (some (gentileEncode rows)) ∧
    (serve 16 x y (StoreOutcome.rows rows) elapsed s).1.status = 200 ∧
    (serve 16 x y (StoreOutcome.rows rows) elapsed s).1.body = gentileEncode rows ∧
    (serve 16 x y (StoreOutcome.rows rows) elapsed s).2.metrics.tile_queryfail.value =
      s.metrics.tile_queryfail.value ∧
    (serve 16 x y (StoreOutcome.rows rows) elapsed s).2.metrics.tile_served.value =
      s.metrics.tile_served.value + 1 ∧
    (serve 16 x y (StoreOutcome.rows []) elapsed s).1.body =
      "\x7b\"features\": [], \"type\": \"FeatureCollection\"\x7d" := by
  have hg := gentile_async_ok 16 x y rows elapsed s h1 h2 he
  have hserve : ∀ rs : List Row,
      serve 16 x y (StoreOutcome.rows rs) elapsed s =
        (⟨200, gentileEncode rs⟩,
         { s with
            metrics := { s.metrics with
              tile_querytime := (s.metrics.tile_querytime.sample elapsed).1
              tile_size :=
                (s.metrics.tile_size.sample (((gentileEncode rs).length : ℕ) : ℚ)).1
              tile_served := s.metrics.tile_served.inc }
            store_queries := s.store_queries + 1 }) := by
    intro rs
    unfold serve tile_handler_pooling tile_handler_on_conn
    rw [if_neg (by simp [zoom_default]),
      gentile_async_ok 16 x y rs elapsed s h1 h2 he]
    rfl
  refine ⟨by rw [hg], ?_, ?_, ?_, ?_, ?_⟩ <;> rw [hserve] <;>
    first
      | rfl
      | exact gentileEncode_nil

/-- Witness for C10 at the initial server state with an empty row set. -/
theorem claim_C10_witness :
    initState.metrics.tile_querytime.goodShape ∧
    (serve 16 0 0 (StoreOutcome.rows []) 0 initState).1.status = 200 := by
  have h1 : initState.metrics.tile_querytime.goodShape := by
    refine ⟨by norm_num [initState, initMetrics, StatHistogram.init], by decide, by decide, rfl⟩
  have h2 : initState.metrics.tile_size.goodShape := by
    refine ⟨by norm_num [initState, initMetrics, StatHistogram.init], by decide, by decide, rfl⟩
  exact ⟨h1, (claim_C10 [] 0 0 0 initState h1 h2 le_rfl).2.1⟩

/-! ### Claim C8 -/

/-- Claim C8: for every zoom and every pair of geographic corners,
`tile_bbox_from_coords` is insensitive to swapping the two corner
arguments. -/
theorem claim_C8 (zoom : ℕ) (latA lonA latB lonB : ℝ) :
    tile_bbox_from_coords zoom (latA, lonA, latB, lonB) =
      tile_bbox_from_coords zoom (latB, lonB, latA, lonA) := by
  simp only [tile_bbox_from_coords]
  rw [min_comm, max_comm, min_comm (osm_deg2num latA lonA zoom).2,
    max_comm (osm_deg2num latA lonA zoom).2]

/-! ### Claim C9 -/

/-- Claim C9: encoding an empty result row sequence does not fail and
returns exactly the text `{"features": [], "type": "FeatureCollection"}`
(a fixed string, hence byte-identical on every run). -/
theorem claim_C9 :
    gentileEncode [] = "\x7b\"features\": [], \"type\": \"FeatureCollection\"\x7d" :=
  gentileEncode_nil

/-! ### Claim C1 -/

/-- Counterexample to C1 as stated: with the supported zoom and a
`psycopg2`-level store failure, the response is *not* 503, the
query-failure counter does *not* increment, and the exception counter is
*not* unchanged. -/
theorem claim_C1_counterexample :
    ¬ ((serve 16 0 0 StoreOutcome.pgError 0 initState).1.status = 503 ∧
       (serve 16 0 0 StoreOutcome.pgError 0 initState).2.metrics.tile_queryfail.value =
         initState.metrics.tile_queryfail.value + 1 ∧
       (serve 16 0 0 StoreOutcome.pgError 0 initState).2.metrics.tile_exception.value =
         initState.metrics.tile_exception.value) := by
  decide

/-- Claim C1, amended: if the store raises a connection or execution
failure while the tile query is being executed, the `psycopg2` error
re-raised by `gentile_async` is caught by the handler's blanket
`except Exception` (which increments `tile_exception`) and converted by
`error_middleware` into HTTP 500; `tile_queryfail` is unchanged. -/
theorem claim_C1_amended (x y : Nat) (elapsed : ℚ) (s : ServerState) :
    (serve 16 x y StoreOutcome.pgError elapsed s).1.status = 500 ∧
    (serve 16 x y StoreOutcome.pgError elapsed s).2.metrics.tile_exception.value =
      s.metrics.tile_exception.value + 1 ∧
    (serve 16 x y StoreOutcome.pgError elapsed s).2.metrics.tile_queryfail.value =
      s.metrics.tile_queryfail.value := by
  simp [serve, tile_handler_pooling, tile_handler_on_conn, gentile_async,
    error_middleware, zoom_default, StatCounter.inc]

/-! ### Claim C3 -/

/-- Counterexample to C3 as stated: a request with unsupported zoom 15 is
answered 404 with no query issued, but it does *not* leave every counter
unchanged: the blanket `except Exception` in the pooling handler catches
the raised `HTTPNotFound` and increments `tile_exception`. -/
theorem claim_C3_counterexample :
    (serve 15 0 0 StoreOutcome.pgError 0 initState).1.status = 404 ∧
    (serve 15 0 0 StoreOutcome.pgError 0 initState).2.store_queries = 0 ∧
    (serve 15 0 0 StoreOutcome.pgError 0 initState).2.metrics.tile_exception.value ≠
      initState.metrics.tile_exception.value := by
  decide

/-- Claim C3, amended: for every request with a zoom different from the
single supported zoom (16), the handler responds 404, issues no tile query
against the store, increments `tile_exception` by exactly 1 (the raised
`HTTPNotFound` is counted by the handler's blanket `except Exception`),
and changes no other counter or histogram. -/
theorem claim_C3_amended (zoom x y : Nat) (hz : zoom ≠ 16) (outcome : StoreOutcome)
    (elapsed : ℚ) (s : ServerState) :
    (serve zoom x y outcome elapsed s).1.status = 404 ∧
    (serve zoom x y outcome elapsed s).2.store_queries = s.store_queries ∧
    (serve zoom x y outcome elapsed s).2.metrics.tile_exception.value =
      s.metrics.tile_exception.value + 1 ∧
    (serve zoom x y outcome elapsed s).2.metrics.tile_queryfail = s.metrics.tile_queryfail ∧
    (serve zoom x y outcome elapsed s).2.metrics.tile_served = s.metrics.tile_served ∧
    (serve zoom x y outcome elapsed s).2.metrics.tilesrv_metrics_scraped =
      s.metrics.tilesrv_metrics_scraped ∧
    (serve zoom x y outcome elapsed s).2.metrics.tilesrv_aliveprobe =
      s.metrics.tilesrv_aliveprobe ∧
    (serve zoom x y outcome elapsed s).2.metrics.tilesrv_start = s.metrics.tilesrv_start ∧
    (serve zoom x y outcome elapsed s).2.metrics.tile_querytime = s.metrics.tile_querytime ∧
    (serve zoom x y outcome elapsed s).2.metrics.tile_size = s.metrics.tile_size := by
  simp [serve, tile_handler_pooling, tile_handler_on_conn, error_middleware,
    zoom_default, hz, StatCounter.inc]

/-- Witness for C3 (amended) at zoom 15. -/
theorem claim_C3_witness :
    (15 : Nat) ≠ 16 ∧ (serve 15 0 0 StoreOutcome.pgError 0 initState).1.status = 404 :=
  ⟨by decide, (claim_C3_amended 15 0 0 (by decide) StoreOutcome.pgError 0 initState).1⟩

/-! ### Claim C7 -/

theorem pyint_eq_floor {r : ℝ} (h : 0 ≤ r) : pyint r = ⌊r⌋ := if_pos h

/-- Numeric bound: `sin (π/36) > 0.0869` (via `sin x > x - x³/4`). -/
theorem sin_pi_div_36_bound : (0.0869 : ℝ) < Real.sin (Real.pi / 36) := by
  have hgt := Real.pi_gt_d6
  have hlt := Real.pi_lt_d6
  have h1 : (0.0872664 : ℝ) < Real.pi / 36 := by linarith
  have h2 : Real.pi / 36 < 0.0872665 := by linarith
  have h3 : Real.pi / 36 ≤ 1 := by linarith
  have h4 := Real.sin_gt_sub_cube (by linarith : (0 : ℝ) < Real.pi / 36) h3
  have h5 : (Real.pi / 36) ^ 3 < 0.0872665 ^ 3 := by
    gcongr
  nlinarith [h4, h5, h1]

/-- Numeric bound: `exp π > 23.02`. -/
theorem exp_pi_bound : (23.02 : ℝ) < Real.exp Real.pi := by
  have h0 : (2.7182818 : ℝ) < Real.exp 1 := by linarith [Real.exp_one_gt_d9]
  have hq : (1.035 : ℝ) ≤ Real.exp 0.035 := by linarith [Real.add_one_le_exp (0.035 : ℝ)]
  have h4 : (1.035 : ℝ) ^ 4 ≤ (Real.exp 0.035) ^ 4 := by
    gcongr
  have h5 : (Real.exp 0.035) ^ 4 = Real.exp 0.14 := by
    rw [← Real.exp_nat_mul]
    norm_num
  have h6 : (Real.exp 1) ^ 3 = Real.exp 3 := by
    rw [← Real.exp_nat_mul]
    norm_num
  have h7 : Real.exp 3 * Real.exp 0.14 = Real.exp 3.14 := by
    rw [← Real.exp_add]
    norm_num
  have h8 : Real.exp 3.14 ≤ Real.exp Real.pi := by
    apply Real.exp_le_exp.mpr
    linarith [Real.pi_gt_d2]
  calc (23.02 : ℝ) < 2.7182818 ^ 3 * 1.035 ^ 4 := by norm_num
    _ ≤ (Real.exp 1) ^ 3 * (1.035 : ℝ) ^ 4 := by
        apply mul_le_mul_of_nonneg_right _ (by positivity)
        gcongr
    _ ≤ (Real.exp 1) ^ 3 * (Real.exp 0.035) ^ 4 := by
        apply mul_le_mul_of_nonneg_left h4 (by positivity)
    _ = Real.exp 3.14 := by rw [h5, h6, h7]
    _ ≤ Real.exp Real.pi := h8

/-- For latitudes below 85 degrees in absolute value (in radians:
`|φ| < 17π/36`), the Mercator argument `tan φ + sec φ` is positive and
below `exp π`, so the projected `y` coordinate is non-negative. -/
theorem tan_add_sec_bound (φ : ℝ) (h : |φ| < 17 * Real.pi / 36) :
    0 < Real.cos φ ∧ 0 < Real.tan φ + 1 / Real.cos φ ∧
    Real.tan φ + 1 / Real.cos φ < Real.exp Real.pi := by
  have hpi := Real.pi_pos
  have hφ2 : |φ| < Real.pi / 2 := lt_of_lt_of_le h (by linarith)
  have hcos : 0 < Real.cos φ :=
    Real.cos_pos_of_mem_Ioo ⟨(abs_lt.mp hφ2).1, (abs_lt.mp hφ2).2⟩
  have hc1 : Real.cos (17 * Real.pi / 36) < Real.cos |φ| := by
    apply Real.strictAntiOn_cos ⟨abs_nonneg φ, by linarith⟩ ⟨by positivity, by linarith⟩ h
  have hc2 : Real.cos (17 * Real.pi / 36) = Real.sin (Real.pi / 36) := by
    rw [show (17 : ℝ) * Real.pi / 36 = Real.pi / 2 - Real.pi / 36 by ring]
    exact Real.cos_pi_div_two_sub _
  have hcos_lb : (0.0869 : ℝ) < Real.cos φ := by
    rw [← Real.cos_abs φ]
    calc (0.0869 : ℝ) < Real.sin (Real.pi / 36) := sin_pi_div_36_bound
      _ = Real.cos (17 * Real.pi / 36) := hc2.symm
      _ < Real.cos |φ| := hc1
  have hts : Real.tan φ + 1 / Real.cos φ = (Real.sin φ + 1) / Real.cos φ := by
    rw [Real.tan_eq_sin_div_cos, div_add_div_same]
  have hsin_gt : -1 < Real.sin φ := by
    nlinarith [Real.sin_sq_add_cos_sq φ, Real.neg_one_le_sin φ, hcos]
  have hpos : 0 < Real.tan φ + 1 / Real.cos φ := by
    rw [hts]
    exact div_pos (by linarith) hcos
  refine ⟨hcos, hpos, ?_⟩
  rw [hts]
  have h2c : (Real.sin φ + 1) / Real.cos φ ≤ 2 / Real.cos φ := by
    apply (div_le_div_right hcos).mpr
    linarith [Real.sin_le_one φ]
  have h2d : 2 / Real.cos φ < 2 / 0.0869 :=
    (div_lt_div_left (by norm_num) hcos (by norm_num)).mpr hcos_lb
  have h2e : (2 : ℝ) / 0.0869 < 23.02 := by norm_num
  linarith [exp_pi_bound]

/-- The inverse-Mercator identity: `sinh (log (tan φ + sec φ)) = tan φ`. -/
theorem sinh_log_tan_add_sec (φ : ℝ) (hφ : |φ| < Real.pi / 2) :
    Real.sinh (Real.log (Real.tan φ + 1 / Real.cos φ)) = Real.tan φ := by
  have hcos : 0 < Real.cos φ :=
    Real.cos_pos_of_mem_Ioo ⟨(abs_lt.mp hφ).1, (abs_lt.mp hφ).2⟩
  have hsin_gt : -1 < Real.sin φ := by
    nlinarith [Real.sin_sq_add_cos_sq φ, Real.neg_one_le_sin φ, hcos]
  have hts : Real.tan φ + 1 / Real.cos φ = (Real.sin φ + 1) / Real.cos φ := by
    rw [Real.tan_eq_sin_div_cos, div_add_div_same]
  have hu : 0 < Real.tan φ + 1 / Real.cos φ := by
    rw [hts]
    exact div_pos (by linarith) hcos
  rw [Real.sinh_eq, Real.exp_log hu, Real.exp_neg, Real.exp_log hu]
  rw [hts, Real.tan_eq_sin_div_cos]
  rw [inv_div]
  have hs1 : Real.sin φ + 1 ≠ 0 := by linarith
  field_simp
  ring_nf
  nlinarith [Real.sin_sq_add_cos_sq φ]

set_option maxHeartbeats 1000000 in
/-- Claim C7: for every zoom `z`, every longitude in `[-180, 180]` and
every latitude with `|lat| < 85`, the tile `(x, y) = osm_deg2num lat lon z`
has corners `num2deg x y z` (NW) and `num2deg (x+1) (y+1) z` (SE) that
bound `(lat, lon)`: the longitude lies between the two corner longitudes
and the latitude between the two corner latitudes. -/
theorem claim_C7 (lat lon : ℝ) (z : ℕ) (hlon1 : -180 ≤ lon) (hlon2 : lon ≤ 180)
    (hlat : |lat| < 85) :
    (num2deg ((osm_deg2num lat lon z).1 : ℝ) ((osm_deg2num lat lon z).2 : ℝ) z).2 ≤ lon ∧
    lon ≤ (num2deg (((osm_deg2num lat lon z).1 : ℝ) + 1)
      (((osm_deg2num lat lon z).2 : ℝ) + 1) z).2 ∧
    (num2deg (((osm_deg2num lat lon z).1 : ℝ) + 1)
      (((osm_deg2num lat lon z).2 : ℝ) + 1) z).1 ≤ lat ∧
    lat ≤ (num2deg ((osm_deg2num lat lon z).1 : ℝ) ((osm_deg2num lat lon z).2 : ℝ) z).1 := by
  have hpi := Real.pi_pos
  have hn : (0 : ℝ) < 2 ^ z := by positivity
  have hX0 : 0 ≤ (lon + 180) / 360 * 2 ^ z := by
    apply mul_nonneg _ hn.le
    apply div_nonneg (by linarith) (by norm_num)
  have hφabs : |lat * (Real.pi / 180)| < 17 * Real.pi / 36 := by
    rw [abs_mul, abs_of_pos (by positivity : (0 : ℝ) < Real.pi / 180)]
    calc |lat| * (Real.pi / 180) < 85 * (Real.pi / 180) := by
          apply mul_lt_mul_of_pos_right hlat (by positivity)
      _ = 17 * Real.pi / 36 := by ring
  have hφ2 : |lat * (Real.pi / 180)| < Real.pi / 2 := lt_of_lt_of_le hφabs (by linarith)
  obtain ⟨hcos, hu_pos, hu_lt⟩ := tan_add_sec_bound _ hφabs
  have hlogu : Real.log (Real.tan (lat * (Real.pi / 180)) +
      1 / Real.cos (lat * (Real.pi / 180))) < Real.pi := by
    have h := Real.log_lt_log hu_pos hu_lt
    rwa [Real.log_exp] at h
  have hY0 : 0 ≤ (1 - Real.log (Real.tan (lat * (Real.pi / 180)) +
      1 / Real.cos (lat * (Real.pi / 180))) / Real.pi) / 2 * 2 ^ z := by
    apply mul_nonneg _ hn.le
    have h1 : Real.log (Real.tan (lat * (Real.pi / 180)) +
        1 / Real.cos (lat * (Real.pi / 180))) / Real.pi < 1 := by
      rw [div_lt_one hpi]
      exact hlogu
    linarith
  simp only [osm_deg2num, num2deg, pyint_eq_floor hX0, pyint_eq_floor hY0]
  obtain ⟨X, hX_def⟩ : ∃ Xv, Xv = (lon + 180) / 360 * (2 : ℝ) ^ z := ⟨_, rfl⟩
  obtain ⟨Y, hY_def⟩ : ∃ Yv, Yv = (1 - Real.log (Real.tan (lat * (Real.pi / 180)) +
      1 / Real.cos (lat * (Real.pi / 180))) / Real.pi) / 2 * (2 : ℝ) ^ z := ⟨_, rfl⟩
  rw [← hX_def, ← hY_def]
  have hXfl : (↑⌊X⌋ : ℝ) ≤ X := Int.floor_le X
  have hXfu : X < ↑⌊X⌋ + 1 := Int.lt_floor_add_one X
  have hYfl : (↑⌊Y⌋ : ℝ) ≤ Y := Int.floor_le Y
  have hYfu : Y < ↑⌊Y⌋ + 1 := Int.lt_floor_add_one Y
  have hlonW : (↑⌊X⌋ : ℝ) / 2 ^ z * 360 - 180 ≤ lon := by
    rw [div_mul_eq_mul_div, sub_le_iff_le_add, div_le_iff hn]
    have h := mul_le_mul_of_nonneg_right hXfl (by norm_num : (0 : ℝ) ≤ 360)
    calc (↑⌊X⌋ : ℝ) * 360 ≤ X * 360 := h
      _ = (lon + 180) * 2 ^ z := by rw [hX_def]; ring
  have hlonE : lon ≤ ((↑⌊X⌋ : ℝ) + 1) / 2 ^ z * 360 - 180 := by
    rw [div_mul_eq_mul_div, le_sub_iff_add_le, le_div_iff hn]
    have h := mul_le_mul_of_nonneg_right hXfu.le (by norm_num : (0 : ℝ) ≤ 360)
    calc (lon + 180) * 2 ^ z = X * 360 := by rw [hX_def]; ring
      _ ≤ ((↑⌊X⌋ : ℝ) + 1) * 360 := h
  have harg : Real.pi * (1 - 2 * Y / 2 ^ z) = Real.log (Real.tan (lat * (Real.pi / 180)) +
      1 / Real.cos (lat * (Real.pi / 180))) := by
    rw [hY_def]
    field_simp
    ring
  have hid : Real.arctan (Real.sinh (Real.pi * (1 - 2 * Y / 2 ^ z))) * (180 / Real.pi) =
      lat := by
    rw [harg, sinh_log_tan_add_sec _ hφ2,
      Real.arctan_tan (by linarith [(abs_lt.mp hφ2).1]) (by linarith [(abs_lt.mp hφ2).2])]
    field_simp
  have hmono : ∀ a b : ℝ, a ≤ b →
      Real.arctan (Real.sinh (Real.pi * (1 - 2 * b / 2 ^ z))) * (180 / Real.pi) ≤
      Real.arctan (Real.sinh (Real.pi * (1 - 2 * a / 2 ^ z))) * (180 / Real.pi) := by
    intro a b hab
    apply mul_le_mul_of_nonneg_right _ (by positivity)
    apply Real.arctan_strictMono.monotone
    apply Real.sinh_le_sinh.mpr
    have hd : 2 * a / 2 ^ z ≤ 2 * b / 2 ^ z := by gcongr
    apply mul_le_mul_of_nonneg_left (by linarith) hpi.le
  refine ⟨hlonW, hlonE, ?_, ?_⟩
  · have h1 := hmono Y ((↑⌊Y⌋ : ℝ) + 1) hYfu.le
    rw [hid] at h1
    exact h1
  · have h2 := hmono (↑⌊Y⌋ : ℝ) Y hYfl
    rw [hid] at h2
    exact h2

/-- Witness for C7 at the origin and zoom 0. -/
theorem claim_C7_witness :
    (-(180 : ℝ) ≤ 0 ∧ (0 : ℝ) ≤ 180 ∧ |(0 : ℝ)| < 85) ∧
    (num2deg ((osm_deg2num 0 0 0).1 : ℝ) ((osm_deg2num 0 0 0).2 : ℝ) 0).2 ≤ 0 :=
  ⟨⟨by norm_num, by norm_num, by norm_num⟩,
   (claim_C7 0 0 0 (by norm_num) (by norm_num) (by norm_num)).1⟩

end Gentiles
